import Mathlib

/-!
Shallow embedding of the polling & rate-adaptive notification core of the
zfh_robot repository (Freelancehunt → Telegram notifier), together with
theorems settling the specification claims.

Conventions of the embedding:
* Python `dict.get` with a possibly missing key becomes `Option`.
* Python functions that may raise an exception return `Option` (`none` =
  an exception escapes the function).
* Machine integers are `Int` (Python ints are unbounded anyway).
* Python `Dict[int, Set[int]]` (the per-user delivered-project registry)
  becomes an association list `List (Int × List Int)` with first-match
  lookup, mirroring dict semantics; set membership is list membership.
-/

namespace ZfhRobot

/-! ## Configuration defaults (config.py) -/

/-- config.py: `RATE_LIMIT_WARNING_THRESHOLD` default. -/
def RATE_LIMIT_WARNING_THRESHOLD : Int := 20

/-- config.py: `RATE_LIMIT_CRITICAL_THRESHOLD` default. -/
def RATE_LIMIT_CRITICAL_THRESHOLD : Int := 10

/-- config.py: `DEFAULT_CHECK_INTERVAL` default. -/
def DEFAULT_CHECK_INTERVAL : Int := 60

/-- config.py: `MIN_API_REQUEST_INTERVAL` default (seconds). -/
def MIN_API_REQUEST_INTERVAL : ℚ := 1

/-! ## Small pieces of Python semantics -/

/-- Python `str.split(",")`, on the underlying character list.
`[]` input (empty string) yields `[[]]`, as in Python. -/
def splitCommaAux : List Char → List Char → List (List Char)
  | [], acc => [acc.reverse]
  | c :: cs, acc =>
    if c = ',' then acc.reverse :: splitCommaAux cs [] else splitCommaAux cs (c :: acc)

/-- Python `s.split(",")` for a string. -/
def pySplitComma (s : String) : List String :=
  (splitCommaAux s.data []).map fun l => String.mk l

/-- Whitespace recognized by Python `int(str)`'s stripping (the common cases). -/
def isPyWhitespace (c : Char) : Bool :=
  c = ' ' ∨ c = '\t' ∨ c = '\n' ∨ c = '\r'

/-- Value of a non-empty all-digit character list, `none` otherwise. -/
def digitsVal (l : List Char) : Option Nat :=
  if l ≠ [] ∧ l.all Char.isDigit then
    some (l.foldl (fun acc c => acc * 10 + (c.toNat - 48)) 0)
  else none

/-- Python `int(s)` for a decimal string: strips surrounding whitespace,
accepts an optional sign followed by digits; raises (`none`) otherwise. -/
def pyInt? (s : String) : Option Int :=
  let t := ((s.data.dropWhile isPyWhitespace).reverse.dropWhile isPyWhitespace).reverse
  match t with
  | '-' :: ds => (digitsVal ds).map fun n => -(n : Int)
  | '+' :: ds => (digitsVal ds).map fun n => (n : Int)
  | ds => (digitsVal ds).map fun n => (n : Int)

/-- Python `str(x)` for an optional integer (`str(None) = "None"`). -/
def pyStrOptInt : Option Int → String
  | none => "None"
  | some n => toString n

/-- Python `list(map(int, tokens))`: parse all tokens, raising (`none`) on
the first token `int()` rejects. -/
def mapIntList : List String → Option (List Int)
  | [] => some []
  | t :: ts =>
    match pyInt? t with
    | none => none
    | some n => (mapIntList ts).map fun ns => n :: ns

/-- Python truthiness of an optional string (`None` and `""` are falsy). -/
def strTruthy : Option String → Bool
  | none => false
  | some s => s ≠ ""

/-! ## Data model: projects, filters, per-user sent registry -/

/-- `project["attributes"]["status"]` : `status.get("id")`. -/
structure Status where
  id : Option Int := none
deriving DecidableEq

/-- One entry of `attributes["skills"]` : `skill.get("id")`. -/
structure Skill where
  id : Option Int := none
deriving DecidableEq

/-- `project.get("attributes", {})`; `employer` is
`attributes.get("employer", {}).get("id")`. -/
structure Attributes where
  status : Status := {}
  employer : Option Int := none
  only_for_plus : Bool := false
  skills : List Skill := []
deriving DecidableEq

/-- A project item as consumed from the API response. -/
structure Project where
  id : Option Int := none
  attributes : Attributes := {}
deriving DecidableEq

/-- A user's filter settings (`Dict[str, str]`, each key possibly absent). -/
structure Filters where
  employer_id : Option String := none
  only_for_plus : Option String := none
  skill_id : Option String := none
deriving DecidableEq

/-- `user_sent_projects : Dict[int, Set[int]]` as an association list. -/
abbrev SentMap := List (Int × List Int)

/-- Python dict lookup (first matching key). -/
def sentLookup : SentMap → Int → Option (List Int)
  | [], _ => none
  | (u, ps) :: rest, uid => if u = uid then some ps else sentLookup rest uid

/-- `user_id in user_sent_projects and project_id in user_sent_projects.get(user_id, set())`. -/
def alreadySent (m : SentMap) (uid pid : Int) : Bool :=
  match sentLookup m uid with
  | some ps => decide (pid ∈ ps)
  | none => false

/-- `UserManager.add_sent_project`: create the user's entry if absent, then
add the project id to the user's set. -/
def addSent : SentMap → Int → Int → SentMap
  | [], uid, pid => [(uid, [pid])]
  | (u, ps) :: rest, uid, pid =>
    if u = uid then (u, pid :: ps) :: rest else (u, ps) :: addSent rest uid pid

/-- Length of a user's delivered set (0 when the user has no entry). -/
def sentLen (m : SentMap) (uid : Int) : Nat :=
  ((sentLookup m uid).getD []).length

/-! ## ProjectChecker.should_process_project (src/utils/project_checker.py)

Returns `none` when the Python code would raise (the `int(...)` parse in the
skill filter), `some b` otherwise. -/

/-- `ProjectChecker.should_process_project`, faithful to the source including
the order of the checks and the raising `int` parse in the skill branch. -/
def should_process_project (project : Project) (filters : Filters)
    (user_id : Int) (user_sent_projects : SentMap) : Option Bool :=
  match project.id with
  | none => some false
  | some project_id =>
    if project_id = 0 then some false
    else if alreadySent user_sent_projects user_id project_id then some false
    else if project.attributes.status.id ≠ some 11 then some false
    else if (match filters.employer_id with
             | some s => decide (s ≠ "") && decide (pyStrOptInt project.attributes.employer ≠ s)
             | none => false) then some false
    else if filters.only_for_plus = some "1" ∧ project.attributes.only_for_plus = false then
      some false
    else
      match filters.skill_id with
      | some s =>
        if s ≠ "" then
          match mapIntList (pySplitComma s) with
          | none => none
          | some filter_skills =>
            let project_skills := project.attributes.skills.map (·.id)
            if filter_skills.any (fun k => decide (some k ∈ project_skills)) then some true
            else some false
        else some true
      | none => some true

/-! ## RateLimitManager (src/api/rate_limiter.py) -/

/-- The belief state of `RateLimitManager` (`limit`, `remaining`); the
`last_request_time` timestamp is passed separately as an elapsed time where
needed. -/
structure RateState where
  limit : Option Int := none
  remaining : Option Int := none
deriving DecidableEq

/-- `RateLimitManager.should_skip_request`. -/
def should_skip_request (rs : RateState) : Bool :=
  match rs.remaining with
  | some r => r ≤ 1
  | none => false

/-- Lowercasing a string character by character (Python `str.lower` on
ASCII header names). -/
def pyLower (s : String) : String :=
  String.mk (s.data.map Char.toLower)

/-- Python `s.split(pat)` for a non-empty pattern, on character lists. -/
def pySplitOnAux (pat : List Char) : List Char → List Char → List (List Char)
  | [], acc => [acc.reverse]
  | c :: cs, acc =>
    if pat.isPrefixOf (c :: cs) then
      acc.reverse :: pySplitOnAux pat (List.drop (pat.length - 1) cs) []
    else
      pySplitOnAux pat cs (c :: acc)
termination_by l _ => l.length
decreasing_by
  all_goals simp only [List.length_cons]
  · have := List.length_drop (pat.length - 1) cs
    omega
  · omega

/-- Python `s.split(pat)` (used only for substring testing). -/
def pySplitOn (s pat : String) : List String :=
  (pySplitOnAux pat.data s.data []).map fun l => String.mk l

/-- Python `pat in s` substring test. -/
def strContains (s pat : String) : Bool :=
  if pat = "" then true else decide ((pySplitOn s pat).length ≥ 2)

/-- One step of `RateLimitManager.update_from_headers`' loop: state is
(`rate state`, `limit_found`, `remaining_found`). Each branch mirrors the
Python `if` blocks, including the value-parse `try/except: pass`. -/
def headerStep (acc : RateState × Bool × Bool) (hv : String × String) :
    RateState × Bool × Bool :=
  let hl := pyLower hv.1
  let rs := acc.1
  let lf := acc.2.1
  let rf := acc.2.2
  let (rs, lf) :=
    if strContains hl "x-ratelimit-limit" then
      match pyInt? hv.2 with
      | some n => ({ rs with limit := some n }, true)
      | none => (rs, lf)
    else (rs, lf)
  let (rs, rf) :=
    if strContains hl "x-ratelimit-remaining" then
      match pyInt? hv.2 with
      | some n => ({ rs with remaining := some n }, true)
      | none => (rs, rf)
    else (rs, rf)
  let (rs, lf) :=
    if strContains hl "x-rate-limit-limit" ∧ lf = false then
      match pyInt? hv.2 with
      | some n => ({ rs with limit := some n }, true)
      | none => (rs, lf)
    else (rs, lf)
  let (rs, rf) :=
    if strContains hl "x-rate-limit-remaining" ∧ rf = false then
      match pyInt? hv.2 with
      | some n => ({ rs with remaining := some n }, true)
      | none => (rs, rf)
    else (rs, rf)
  (rs, lf, rf)

/-- `RateLimitManager.update_from_headers`: folds the header dict in
insertion order. -/
def update_from_headers (rs : RateState) (headers : List (String × String)) : RateState :=
  (headers.foldl headerStep (rs, false, false)).1

/-- The additional cooldown slept by `RateLimitManager.wait_if_needed` after
the minimum-spacing wait, exactly as the source orders its branches
(`remaining < warning` is tested BEFORE `remaining < critical`). -/
def wait_cooldown (remaining : Option Int) (warning critical : Int) : ℚ :=
  match remaining with
  | some r => if r < warning then 5 else if r < critical then 10 else 0
  | none => 0

/-- Total time slept by one call of `RateLimitManager.wait_if_needed`:
minimum-spacing wait (when an elapsed time since the last request is known)
plus the cooldown. -/
def wait_if_needed_sleep (elapsed : Option ℚ) (minInterval : ℚ)
    (remaining : Option Int) (warning critical : Int) : ℚ :=
  (match elapsed with
   | some t => if t < minInterval then minInterval - t else 0
   | none => 0) + wait_cooldown remaining warning critical

/-! ## ProjectChecker.calculate_smart_interval and the scheduler's wait -/

/-- `ProjectChecker.calculate_smart_interval`: note the hard-coded cutoffs
5 and 10 on `api_requests_remaining` in the source. -/
def calculate_smart_interval (min_user_interval : Int) (active_users_count : Nat)
    (api_requests_remaining : Option Int) : Int :=
  let interval := min_user_interval
  let interval := if active_users_count > 10 then max interval 60 else interval
  match api_requests_remaining with
  | some r =>
    if r < 5 then max interval 300
    else if r < 10 then max interval 120
    else interval
  | none => interval

/-- Python dict lookup for the user-interval dict. -/
def intervalLookup : List (Int × Int) → Int → Option Int
  | [], _ => none
  | (u, n) :: rest, uid => if u = uid then some n else intervalLookup rest uid

/-- `UserManager.get_min_user_interval`: minimum interval over the active
users (default interval for a user without one, and when nobody is active). -/
def get_min_user_interval (active : List Int) (intervals : List (Int × Int)) : Int :=
  match active.map (fun u => (intervalLookup intervals u).getD DEFAULT_CHECK_INTERVAL) with
  | [] => DEFAULT_CHECK_INTERVAL
  | x :: xs => xs.foldl min x

/-- `ProjectService._wait_smart_interval`: sleep 10 s when no user is active,
else the smart interval computed from the minimum user interval, the active
count and the rate belief. -/
def wait_smart_interval (active : List Int) (intervals : List (Int × Int))
    (remaining : Option Int) : Int :=
  if active = [] then 10
  else calculate_smart_interval (get_min_user_interval active intervals) active.length remaining

/-! ## UserManager.cleanup_sent_projects -/

/-- Per-user body of `UserManager.cleanup_sent_projects`: when the user's
delivered set exceeds `max_size`, sort it descending and keep the first
`keep_size` ids. -/
def cleanup_user (projects : List Int) (max_size keep_size : Nat) : List Int :=
  if projects.length > max_size then
    (List.insertionSort (· ≥ ·) projects).take keep_size
  else projects

/-- `UserManager.cleanup_sent_projects` over the whole registry. -/
def cleanup_sent_projects (m : SentMap) (max_size keep_size : Nat) : SentMap :=
  m.map fun e => (e.1, cleanup_user e.2 max_size keep_size)

/-! ## FreelancehuntAPI (src/api/freelancehunt.py)

The response body is modelled as a JSON value; Python operations on it that
may raise (`in` on a non-container, `.get` on a non-dict, `len` on a
number) return `none` where they raise `TypeError`/`AttributeError`, which
the source does not catch (its `except` clause only catches
`aiohttp.ClientError`, and the inner rate-limit parse only catches
`ValueError`/`TypeError` around the `int(...)` conversions). -/

/-- A JSON value (numbers restricted to integers, enough for this API). -/
inductive JVal where
  | jnull
  | jbool (b : Bool)
  | jnum (n : Int)
  | jstr (s : String)
  | jarr (xs : List JVal)
  | jobj (fields : List (String × JVal))

/-- Python truthiness of a JSON value. -/
def jTruthy : JVal → Bool
  | .jnull => false
  | .jbool b => b
  | .jnum n => n ≠ 0
  | .jstr s => s ≠ ""
  | .jarr xs => !xs.isEmpty
  | .jobj fs => !fs.isEmpty

/-- Python `elem == key` for a string `key`: only an equal string compares
equal (Python never equates a string with a non-string JSON value). -/
def jIsStr (key : String) : JVal → Bool
  | .jstr s => s = key
  | _ => false

/-- Python `key in v`: key test for dicts, membership for lists, substring
for strings; raises `TypeError` (= `none`) for other values. -/
def pyIn (key : String) : JVal → Option Bool
  | .jobj fs => some (fs.any fun kv => kv.1 = key)
  | .jarr xs => some (xs.any (jIsStr key))
  | .jstr s => some (strContains s key)
  | _ => none

/-- First value bound to `key` in a JSON object's field list. -/
def jLookup : List (String × JVal) → String → Option JVal
  | [], _ => none
  | (k, v) :: rest, key => if k = key then some v else jLookup rest key

/-- Python `v.get(key, dflt)`: only dicts have `.get`; other values raise
`AttributeError` (= `none`). -/
def jGet (v : JVal) (key : String) (dflt : JVal) : Option JVal :=
  match v with
  | .jobj fs => some ((jLookup fs key).getD dflt)
  | _ => none

/-- Python `len(v)`: raises `TypeError` (= `none`) for numbers, booleans
and `None`. -/
def pyLen : JVal → Option Nat
  | .jstr s => some s.length
  | .jarr xs => some xs.length
  | .jobj fs => some fs.length
  | _ => none

/-- Python `int(v)` on a JSON value; `none` where `int()` raises. -/
def pyIntOfJ : JVal → Option Int
  | .jnum n => some n
  | .jstr s => pyInt? s
  | .jbool b => some (if b then 1 else 0)
  | _ => none

/-- The `try: ... int(info["limit"]) ... except (ValueError, TypeError)`
block of `_make_request`: yields the parsed (limit, remaining) pair, or
`none` when the caught exception path was taken (no state change). -/
def rlParse (info : JVal) : Option (Int × Int) :=
  match info with
  | .jobj fs => do
    let l ← jLookup fs "limit"
    let r ← jLookup fs "remaining"
    let li ← pyIntOfJ l
    let ri ← pyIntOfJ r
    pure (li, ri)
  | _ => none

/-- The body-`meta` inspecting block of `_make_request` on a 200 response.
Outer `none` = an uncaught `TypeError`/`AttributeError` escapes; otherwise
`some info` where `info` is the successfully parsed (limit, remaining)
pair, if any. -/
def metaBlock (rd : JVal) : Option (Option (Int × Int)) := do
  let hasMeta ← pyIn "meta" rd
  if hasMeta then
    let meta ← jGet rd "meta" (.jobj [])
    let h1 ← pyIn "ratelimit" meta
    let hrl ← if h1 then pure true else pyIn "rate_limit" meta
    if hrl then
      let m1 ← jGet meta "ratelimit" (.jobj [])
      let info ← if jTruthy m1 then pure m1 else jGet meta "rate_limit" (.jobj [])
      let hlim ← pyIn "limit" info
      let hrem ← if hlim then pyIn "remaining" info else pure false
      if hlim && hrem then pure (rlParse info) else pure none
    else pure none
  else pure none

/-- Result of `response.json()` on a 200 response: a parsed value; an
`aiohttp.ContentTypeError` when the response's content type is not JSON — a
subclass of `aiohttp.ClientError`, which the source's `except` catches; or
a `json.JSONDecodeError` when the body text is not valid JSON — a subclass
of `ValueError`, which `except aiohttp.ClientError` does NOT catch, so it
escapes `_make_request` uncaught. -/
inductive BodyParse where
  | parsed (v : JVal)
  | contentTypeError
  | decodeError

/-- One upstream outcome for a single HTTP request: a network-level error
(`aiohttp.ClientError`), or a response with a status, headers, and — read
only on status 200 — the outcome of `response.json()`. -/
inductive Upstream where
  | netError
  | resp (status : Nat) (headers : List (String × String)) (body : BodyParse)

/-- `FreelancehuntAPI._make_request`, as a function of the rate-limit belief
and the upstream outcome. Result `none` = an uncaught exception escapes;
`some (data, rs, called)` = returned `data` with new belief `rs`, where
`called` records whether a network request was issued. -/
def make_request (rs : RateState) (u : Upstream) : Option (JVal × RateState × Bool) :=
  if should_skip_request rs then some (.jobj [], rs, false)
  else
    match u with
    | .netError => some (.jobj [], rs, true)
    | .resp status headers body =>
      let rs1 := update_from_headers rs headers
      if status = 200 then
        match body with
        | .contentTypeError => some (.jobj [], rs1, true)
        | .decodeError => none
        | .parsed rd =>
          match metaBlock rd with
          | none => none
          | some rlInfo =>
            let rs2 :=
              match rlInfo with
              | some lr => { rs1 with limit := some lr.1, remaining := some lr.2 }
              | none => rs1
            let rs3 :=
              if rs2.limit = none then { rs2 with limit := some 30, remaining := some 29 }
              else rs2
            some (rd, rs3, true)
      else if status = 429 then
        some (.jobj [], { rs1 with remaining := some 0 }, true)
      else
        some (.jobj [], rs1, true)

/-- `FreelancehuntAPI.get_projects`: `_make_request` then
`data.get("data", [])` and the `len(projects)` log line (both of which can
raise for ill-shaped 200 bodies). The filter-to-query translation does not
affect the returned value and is omitted. -/
def get_projects (rs : RateState) (u : Upstream) : Option (JVal × RateState × Bool) := do
  let (data, rs1, called) ← make_request rs u
  let projects ← jGet data "data" (.jarr [])
  let _ ← pyLen projects
  pure (projects, rs1, called)

/-! ## ProjectService cycle (src/services/project_service.py)

`_check_projects_for_user` iterates `reversed(projects)` and calls
`_process_project_for_user`, which checks `should_process_project`, marks
the project sent (`add_sent_project`) and only then attempts delivery.
`_check_projects_for_all_users` wraps each user in `try/except` (a raised
filter error aborts that user's remaining projects but keeps the mutations
already made) and ends with `cleanup_sent_projects()` (defaults 1000/500)
whenever at least one user is active. -/

/-- Process a list of projects for one user, in the given order: returns the
updated registry, the ids for which the delivery callback was invoked (in
delivery order), and `false` when an exception escaped (aborting the rest of
this user's projects). -/
def processProjects (user_id : Int) (filters : Filters) :
    List Project → SentMap → SentMap × List Int × Bool
  | [], sent => (sent, [], true)
  | p :: rest, sent =>
    match should_process_project p filters user_id sent with
    | none => (sent, [], false)
    | some false => processProjects user_id filters rest sent
    | some true =>
      let pid := p.id.getD 0
      let sent2 := addSent sent user_id pid
      let out := processProjects user_id filters rest sent2
      (out.1, pid :: out.2.1, out.2.2)

/-- One user's slot in a cycle: (user id, filters, the project list fetched
for that user this cycle). -/
abbrev UserSlot := Int × Filters × List Project

/-- The per-user loop of `_check_projects_for_all_users` (without the final
cleanup): deliveries are tagged with the user id. -/
def cycleUsers : List UserSlot → SentMap → SentMap × List (Int × Int)
  | [], sent => (sent, [])
  | (uid, f, projects) :: rest, sent =>
    let r := processProjects uid f projects.reverse sent
    let out := cycleUsers rest r.1
    (out.1, (r.2.1.map fun pid => (uid, pid)) ++ out.2)

/-- One full cycle of `_check_projects_for_all_users`: when no user is
active the function returns before reaching the cleanup; otherwise all users
are processed and then `cleanup_sent_projects()` runs with its defaults. -/
def cycleFull (users : List UserSlot) (sent : SentMap) : SentMap × List (Int × Int) :=
  if users.isEmpty then (sent, [])
  else
    let r := cycleUsers users sent
    (cleanup_sent_projects r.1 1000 500, r.2)

/-- Several consecutive cycles of the monitoring loop; each element of
`cycles` is the per-user fetched data of one cycle. -/
def runCycles : List (List UserSlot) → SentMap → SentMap × List (Int × Int)
  | [], sent => (sent, [])
  | users :: rest, sent =>
    let r := cycleFull users sent
    let out := runCycles rest r.1
    (out.1, r.2 ++ out.2)

/-- Total number of fetched items across all user slots of a cycle. -/
def itemsOf (users : List UserSlot) : Nat :=
  (users.map fun s => s.2.2.length).sum

/-- Total number of fetched items across several cycles. -/
def totalItems (cycles : List (List UserSlot)) : Nat :=
  (cycles.map itemsOf).sum

/-! ## Concrete instances used by witnesses and counterexamples -/

/-- An open project (status 11) with id 100 and skill set {22}. -/
def proj100 : Project :=
  { id := some 100, attributes := { status := { id := some 11 }, skills := [{ id := some 22 }] } }

/-- An open project (status 11) with id 101 and skill set {7}. -/
def proj101 : Project :=
  { id := some 101, attributes := { status := { id := some 11 }, skills := [{ id := some 7 }] } }

/-- An open project (status 11) with id 1 and no skills. -/
def projOne : Project :=
  { id := some 1, attributes := { status := { id := some 11 } } }

/-- An open project (status 11) with id 5 and no skills. -/
def projFive : Project :=
  { id := some 5, attributes := { status := { id := some 11 } } }

/-- A filter spec selecting skill id 22. -/
def filterSkill22 : Filters := { skill_id := some "22" }

/-- A filter spec whose skill list does not parse as integers. -/
def filterBadSkill : Filters := { skill_id := some "abc" }

/-- A delivered history of 1001 distinct ids 1..1001, stored descending. -/
def bigHistory : List Int :=
  (List.range 1001).map fun k => ((1001 - k : Nat) : Int)

/-! ## Helper lemmas on the sent registry -/

theorem alreadySent_addSent {m : SentMap} {uid pid : Int} (v y : Int)
    (h : alreadySent m uid pid = true) : alreadySent (addSent m v y) uid pid = true := by
  induction m with
  | nil => simp [alreadySent, sentLookup] at h
  | cons e rest ih =>
    obtain ⟨u, ps⟩ := e
    by_cases huv : u = v
    · by_cases huid : u = uid
      · simp only [alreadySent, sentLookup, if_pos huid] at h
        simp only [addSent, if_pos huv, alreadySent, sentLookup, if_pos huid]
        simp only [decide_eq_true_eq] at h ⊢
        exact List.mem_cons_of_mem _ h
      · simp only [alreadySent, sentLookup, if_neg huid] at h
        simp only [addSent, if_pos huv, alreadySent, sentLookup, if_neg huid]
        exact h
    · by_cases huid : u = uid
      · simp only [alreadySent, sentLookup, if_pos huid] at h
        simp only [addSent, if_neg huv, alreadySent, sentLookup, if_pos huid]
        exact h
      · simp only [alreadySent, sentLookup, if_neg huid] at h
        simp only [addSent, if_neg huv, alreadySent, sentLookup, if_neg huid]
        exact ih h

theorem sentLen_addSent (m : SentMap) (v y u : Int) :
    sentLen (addSent m v y) u ≤ sentLen m u + 1 := by
  induction m with
  | nil =>
    by_cases h : v = u <;> simp [sentLen, addSent, sentLookup, h]
  | cons e rest ih =>
    obtain ⟨w, ps⟩ := e
    by_cases hwv : w = v
    · subst hwv
      by_cases hwu : w = u <;>
        simp [sentLen, addSent, sentLookup, hwu]
    · by_cases hwu : w = u
      · subst hwu
        simp [sentLen, addSent, sentLookup, hwv]
      · simpa [sentLen, addSent, sentLookup, hwv, hwu] using ih

theorem not_sent_of_should_process_true {p : Project} {f : Filters} {uid : Int}
    {sent : SentMap} (h : should_process_project p f uid sent = some true) :
    alreadySent sent uid (p.id.getD 0) = false := by
  obtain ⟨pid?, attrs⟩ := p
  cases pid? with
  | none => simp [should_process_project] at h
  | some q =>
    simp only [should_process_project] at h
    simp only [Option.getD_some]
    by_cases h0 : q = 0
    · rw [if_pos h0] at h; simp at h
    · rw [if_neg h0] at h
      by_cases hs : alreadySent sent uid q = true
      · rw [if_pos hs] at h; simp at h
      · simpa using hs

/-- `processProjects` never shrinks any user's delivered set. -/
theorem processProjects_preserve (u : Int) (f : Filters) (ps : List Project)
    (sent : SentMap) {w x : Int} (h : alreadySent sent w x = true) :
    alreadySent (processProjects u f ps sent).1 w x = true := by
  induction ps generalizing sent with
  | nil => simpa [processProjects] using h
  | cons p rest ih =>
    simp only [processProjects]
    cases hsp : should_process_project p f u sent with
    | none => simpa using h
    | some b =>
      cases b with
      | false => exact ih sent h
      | true => exact ih _ (alreadySent_addSent _ _ h)

/-- An id already in a user's delivered set is never among the ids the
delivery callback is invoked for during `processProjects` for that user. -/
theorem processProjects_no_redeliver (u : Int) (f : Filters) (ps : List Project)
    (sent : SentMap) {pid : Int} (h : alreadySent sent u pid = true) :
    pid ∉ (processProjects u f ps sent).2.1 := by
  induction ps generalizing sent with
  | nil => simp [processProjects]
  | cons p rest ih =>
    simp only [processProjects]
    cases hsp : should_process_project p f u sent with
    | none => simp
    | some b =>
      cases b with
      | false => exact ih sent h
      | true =>
        have hnot := not_sent_of_should_process_true hsp
        intro hmem
        rcases List.mem_cons.mp hmem with heq | hmem2
        · rw [heq] at h
          rw [h] at hnot
          simp at hnot
        · exact ih _ (alreadySent_addSent _ _ h) hmem2

/-- The growth of any user's delivered set during `processProjects` is
bounded by the number of projects processed. -/
theorem sentLen_processProjects (u : Int) (f : Filters) (ps : List Project)
    (sent : SentMap) (w : Int) :
    sentLen (processProjects u f ps sent).1 w ≤ sentLen sent w + ps.length := by
  induction ps generalizing sent with
  | nil => simp [processProjects]
  | cons p rest ih =>
    simp only [processProjects]
    cases hsp : should_process_project p f u sent with
    | none => simp
    | some b =>
      cases b with
      | false =>
        have := ih sent
        simp only [List.length_cons]
        omega
      | true =>
        have h1 := ih (addSent sent u (p.id.getD 0))
        have h2 := sentLen_addSent sent u (p.id.getD 0) w
        simp only [List.length_cons]
        omega

theorem cycleUsers_preserve (users : List UserSlot) (sent : SentMap) {w x : Int}
    (h : alreadySent sent w x = true) :
    alreadySent (cycleUsers users sent).1 w x = true := by
  induction users generalizing sent with
  | nil => simpa [cycleUsers] using h
  | cons slot rest ih =>
    obtain ⟨uid, f, projects⟩ := slot
    exact ih _ (processProjects_preserve _ _ _ _ h)

theorem cycleUsers_no_redeliver (users : List UserSlot) (sent : SentMap) {uid pid : Int}
    (h : alreadySent sent uid pid = true) :
    (uid, pid) ∉ (cycleUsers users sent).2 := by
  induction users generalizing sent with
  | nil => simp [cycleUsers]
  | cons slot rest ih =>
    obtain ⟨u, f, projects⟩ := slot
    simp only [cycleUsers, List.mem_append]
    rintro (hmem | hmem)
    · rcases List.mem_map.mp hmem with ⟨q, hq, heq⟩
      have hu : u = uid := congrArg Prod.fst heq
      have hqpid : q = pid := congrArg Prod.snd heq
      subst hu; subst hqpid
      exact processProjects_no_redeliver u f projects.reverse sent h hq
    · exact ih _ (processProjects_preserve _ _ _ _ h) hmem

theorem sentLen_cycleUsers (users : List UserSlot) (sent : SentMap) (w : Int) :
    sentLen (cycleUsers users sent).1 w ≤ sentLen sent w + itemsOf users := by
  induction users generalizing sent with
  | nil => simp [cycleUsers, itemsOf]
  | cons slot rest ih =>
    obtain ⟨u, f, projects⟩ := slot
    simp only [cycleUsers, itemsOf, List.map_cons, List.sum_cons]
    have h1 := ih (processProjects u f projects.reverse sent).1
    have h2 := sentLen_processProjects u f projects.reverse sent w
    simp only [List.length_reverse] at h2
    simp only [itemsOf] at h1
    omega

/-! ## Helper lemmas on cleanup -/

theorem sentLookup_cleanup (m : SentMap) (a b : Nat) (u : Int) :
    sentLookup (cleanup_sent_projects m a b) u
      = (sentLookup m u).map fun l => cleanup_user l a b := by
  induction m with
  | nil => simp [cleanup_sent_projects, sentLookup]
  | cons e rest ih =>
    obtain ⟨w, ps⟩ := e
    by_cases hwu : w = u
    · simp [cleanup_sent_projects, sentLookup, hwu]
    · simpa [cleanup_sent_projects, sentLookup, hwu] using ih

theorem cleanup_user_of_le {l : List Int} {a : Nat} (b : Nat) (h : l.length ≤ a) :
    cleanup_user l a b = l := by
  simp [cleanup_user, Nat.not_lt.mpr h]

theorem cleanup_user_length_le (l : List Int) (a b : Nat) :
    (cleanup_user l a b).length ≤ l.length := by
  unfold cleanup_user
  split
  · calc (List.take b (List.insertionSort (· ≥ ·) l)).length
        ≤ (List.insertionSort (· ≥ ·) l).length := (List.take_sublist _ _).length_le
      _ = l.length := List.length_insertionSort _ _
  · exact Nat.le_refl _

theorem alreadySent_cleanup {m : SentMap} {u x : Int} (b : Nat)
    (h : alreadySent m u x = true) (hlen : sentLen m u ≤ 1000) :
    alreadySent (cleanup_sent_projects m 1000 b) u x = true := by
  unfold alreadySent at h ⊢
  rw [sentLookup_cleanup]
  cases hl : sentLookup m u with
  | none => simp [hl] at h
  | some l =>
    rw [hl] at h
    have hmap : (some l).map (fun l => cleanup_user l 1000 b) = some (cleanup_user l 1000 b) :=
      rfl
    rw [hmap, cleanup_user_of_le]
    · exact h
    · simpa [sentLen, hl] using hlen

theorem sentLen_cleanup_le (m : SentMap) (a b : Nat) (u : Int) :
    sentLen (cleanup_sent_projects m a b) u ≤ sentLen m u := by
  unfold sentLen
  rw [sentLookup_cleanup]
  cases hl : sentLookup m u with
  | none => simp
  | some l => simpa using cleanup_user_length_le l a b

/-! ## Helper lemmas on full cycles -/

theorem cycleFull_preserve (users : List UserSlot) (sent : SentMap) {uid pid : Int}
    (h : alreadySent sent uid pid = true)
    (hlen : sentLen sent uid + itemsOf users ≤ 1000) :
    alreadySent (cycleFull users sent).1 uid pid = true ∧
    (uid, pid) ∉ (cycleFull users sent).2 ∧
    sentLen (cycleFull users sent).1 uid ≤ sentLen sent uid + itemsOf users := by
  unfold cycleFull
  by_cases he : users.isEmpty
  · simp only [he, if_pos]
    exact ⟨h, by simp, Nat.le_add_right _ _⟩
  · simp only [he, if_neg, Bool.false_eq_true, not_false_iff]
    refine ⟨?_, ?_, ?_⟩
    · exact alreadySent_cleanup _ (cycleUsers_preserve users sent h)
        (Nat.le_trans (sentLen_cycleUsers users sent uid) hlen)
    · exact cycleUsers_no_redeliver users sent h
    · exact Nat.le_trans (sentLen_cleanup_le _ _ _ _) (sentLen_cycleUsers users sent uid)

theorem runCycles_no_redeliver (cycles : List (List UserSlot)) (sent : SentMap)
    {uid pid : Int} (h : alreadySent sent uid pid = true)
    (hlen : sentLen sent uid + totalItems cycles ≤ 1000) :
    (uid, pid) ∉ (runCycles cycles sent).2 := by
  induction cycles generalizing sent with
  | nil => simp [runCycles]
  | cons users rest ih =>
    simp only [totalItems, List.map_cons, List.sum_cons] at hlen
    have hstep := cycleFull_preserve users sent h (by omega)
    simp only [runCycles, List.mem_append]
    rintro (hmem | hmem)
    · exact hstep.2.1 hmem
    · refine ih _ hstep.1 ?_ hmem
      have := hstep.2.2
      simp only [totalItems]
      omega

/-! ## Claim theorems -/

set_option maxRecDepth 100000

/-- C4: for every tracker state, `should_skip_request` returns true iff
`remaining` is known (not `None`) and at most 1; in particular it is false
whenever `remaining` is unknown, regardless of `limit`. -/
theorem c4_should_skip_iff_remaining_le_one (rs : RateState) :
    should_skip_request rs = true ↔ ∃ r, rs.remaining = some r ∧ r ≤ 1 := by
  unfold should_skip_request
  cases h : rs.remaining with
  | none => simp
  | some r => simp

/-- C3 (code bug): with `critical ≤ warning` — the ordering config.py
enforces at startup — the extra cooldown of `wait_if_needed` is 5 s for
every known `remaining` below the warning threshold, including every value
below the critical threshold; the 10 s branch of the source is unreachable
because the warning test is performed first. -/
theorem c3_critical_branch_shadowed (t minInterval : ℚ) (r warning critical : Int)
    (ht : minInterval ≤ t) (hwc : critical ≤ warning) :
    wait_if_needed_sleep (some t) minInterval (some r) warning critical
      = (if r < warning then (5 : ℚ) else 0) := by
  show ((if t < minInterval then minInterval - t else 0)
      + (if r < warning then (5 : ℚ) else if r < critical then 10 else 0))
    = (if r < warning then (5 : ℚ) else 0)
  rw [if_neg (not_lt.mpr ht), zero_add]
  by_cases hw : r < warning
  · rw [if_pos hw, if_pos hw]
  · rw [if_neg hw, if_neg hw, if_neg]
    intro hc
    exact hw (lt_of_lt_of_le hc hwc)

/-- Witness for C3 at the failing input: `remaining = 5` with the default
thresholds (warning 20, critical 10) sleeps 5 s, not the claimed 10 s. -/
theorem c3_critical_branch_shadowed_witness :
    (1 : ℚ) ≤ 2 ∧ RATE_LIMIT_CRITICAL_THRESHOLD ≤ RATE_LIMIT_WARNING_THRESHOLD ∧
    wait_if_needed_sleep (some 2) 1 (some 5)
        RATE_LIMIT_WARNING_THRESHOLD RATE_LIMIT_CRITICAL_THRESHOLD
      = (if (5 : Int) < RATE_LIMIT_WARNING_THRESHOLD then (5 : ℚ) else 0) :=
  ⟨by norm_num, by decide,
    c3_critical_branch_shadowed 2 1 5 RATE_LIMIT_WARNING_THRESHOLD
      RATE_LIMIT_CRITICAL_THRESHOLD (by norm_num) (by decide)⟩

/-- C9: a project whose id is absent or falsy (`None` or `0`) is rejected by
`should_process_project` for every subscriber, filter spec and history, and
its processing step neither marks it delivered nor delivers it (the cycle
state is exactly the state with the project dropped). -/
theorem c9_falsy_id_never_delivered (p : Project) (f : Filters) (uid : Int)
    (sent : SentMap) (h : p.id = none ∨ p.id = some 0) :
    should_process_project p f uid sent = some false ∧
    ∀ rest, processProjects uid f (p :: rest) sent = processProjects uid f rest sent := by
  have hfalse : should_process_project p f uid sent = some false := by
    rcases h with h | h <;>
      · obtain ⟨pid?, attrs⟩ := p
        simp only [Project.mk.injEq] at h
        simp [should_process_project, h]
  refine ⟨hfalse, fun rest => ?_⟩
  simp [processProjects, hfalse]

/-- Witness for C9 at a concrete project with no id. -/
theorem c9_falsy_id_never_delivered_witness :
    ((Project.mk none {}).id = none ∨ (Project.mk none {}).id = some 0) ∧
    (should_process_project (Project.mk none {}) {} 3 [] = some false ∧
      ∀ rest, processProjects 3 {} (Project.mk none {} :: rest) []
        = processProjects 3 {} rest []) :=
  ⟨Or.inl rfl, c9_falsy_id_never_delivered (Project.mk none {}) {} 3 [] (Or.inl rfl)⟩

/-- C7: with subscriber 1 filtering on skill 22 and subscriber 2 without
filters, and both fetching open items 100 (skills {22}) and 101 (skills
{7}) in one cycle starting from an empty history, subscriber 1 is delivered
exactly item 100 and subscriber 2 both items (dedup is per subscriber, so
1's receipt of 100 does not suppress 2's). -/
theorem c7_two_subscriber_scenario :
    ((cycleFull [(1, filterSkill22, [proj100, proj101]), (2, {}, [proj100, proj101])]
        []).2.filter fun d => d.1 = 1).map Prod.snd = [100] ∧
    ((cycleFull [(1, filterSkill22, [proj100, proj101]), (2, {}, [proj100, proj101])]
        []).2.filter fun d => d.1 = 2).map Prod.snd = [101, 100] := by
  decide

/-- When `_make_request` returns the empty dict, `get_projects` returns the
empty list with the same state and call flag. -/
theorem get_projects_of_empty {rs : RateState} {u : Upstream} {rs2 : RateState} {c : Bool}
    (h : make_request rs u = some (.jobj [], rs2, c)) :
    get_projects rs u = some (.jarr [], rs2, c) := by
  simp [get_projects, h, jGet, jLookup, pyLen]

theorem make_request_ne_200 (rs : RateState) (status : Nat)
    (headers : List (String × String)) (body : BodyParse) (h : status ≠ 200) :
    ∃ rs2 c, make_request rs (.resp status headers body) = some (.jobj [], rs2, c) := by
  by_cases hskip : should_skip_request rs = true
  · exact ⟨rs, false, by unfold make_request; simp [hskip]⟩
  · by_cases h429 : status = 429
    · exact ⟨{ update_from_headers rs headers with remaining := some 0 }, true,
        by unfold make_request; simp [hskip, h, h429]⟩
    · exact ⟨update_from_headers rs headers, true,
        by unfold make_request; simp [hskip, h, h429]⟩

theorem make_request_netError (rs : RateState) :
    ∃ c, make_request rs .netError = some (.jobj [], rs, c) := by
  by_cases hskip : should_skip_request rs = true
  · exact ⟨false, by unfold make_request; simp [hskip]⟩
  · exact ⟨true, by unfold make_request; simp [hskip]⟩

theorem make_request_200_content_type_error (rs : RateState)
    (headers : List (String × String)) :
    ∃ rs2 c, make_request rs (.resp 200 headers .contentTypeError)
      = some (.jobj [], rs2, c) := by
  by_cases hskip : should_skip_request rs = true
  · exact ⟨rs, false, by unfold make_request; simp [hskip]⟩
  · exact ⟨update_from_headers rs headers, true, by unfold make_request; simp [hskip]⟩

theorem make_request_200_decode_error (rs : RateState)
    (headers : List (String × String)) (h : should_skip_request rs = false) :
    make_request rs (.resp 200 headers .decodeError) = none := by
  unfold make_request
  simp [h]

/-- C2 counterexample: a 200 response whose JSON body is the number `5`
makes `get_projects` raise (an uncaught `TypeError` at the
`"meta" in response_data` test of `_make_request`) instead of returning an
empty list — refuting "this operation never raises". -/
theorem c2_malformed_200_body_raises :
    get_projects {} (.resp 200 [] (.parsed (.jnum 5))) = none := rfl

/-- C2 (amended): `get_projects` returns an empty list, without raising, for
every HTTP status other than 200, for every network error
(`aiohttp.ClientError`), and for a 200 response whose `response.json()`
raises `aiohttp.ContentTypeError` (caught as a `ClientError`); however a 200
response whose body fails JSON decoding raises `json.JSONDecodeError` — a
`ValueError` the source does not catch — and escapes, as does a 200 response
with a parsed but ill-shaped body. -/
theorem c2_failures_yield_empty_list (rs : RateState) :
    (∀ status headers body, status ≠ 200 →
      ∃ rs2 c, get_projects rs (.resp status headers body) = some (.jarr [], rs2, c)) ∧
    (∃ c, get_projects rs .netError = some (.jarr [], rs, c)) ∧
    (∀ headers, ∃ rs2 c, get_projects rs (.resp 200 headers .contentTypeError)
      = some (.jarr [], rs2, c)) ∧
    (∀ headers, should_skip_request rs = false →
      get_projects rs (.resp 200 headers .decodeError) = none) := by
  refine ⟨?_, ?_, ?_, ?_⟩
  · intro status headers body h
    obtain ⟨rs2, c, hmk⟩ := make_request_ne_200 rs status headers body h
    exact ⟨rs2, c, get_projects_of_empty hmk⟩
  · obtain ⟨c, hmk⟩ := make_request_netError rs
    exact ⟨c, get_projects_of_empty hmk⟩
  · intro headers
    obtain ⟨rs2, c, hmk⟩ := make_request_200_content_type_error rs headers
    exact ⟨rs2, c, get_projects_of_empty hmk⟩
  · intro headers h
    simp [get_projects, make_request_200_decode_error rs headers h]

/-- Witness for C2 (amended): status 404 yields an empty list, and an
undecodable 200 body raises, both from a fresh tracker state. -/
theorem c2_failures_yield_empty_list_witness :
    (404 : Nat) ≠ 200 ∧ should_skip_request {} = false ∧
    (∃ rs2 c, get_projects {} (.resp 404 [] .decodeError) = some (.jarr [], rs2, c)) ∧
    get_projects {} (.resp 200 [] .decodeError) = none :=
  ⟨by decide, by decide,
    (c2_failures_yield_empty_list {}).1 404 [] .decodeError (by decide),
    (c2_failures_yield_empty_list {}).2.2.2 [] (by decide)⟩

/-- C5: a fetch hitting HTTP 429 (when not itself skipped) returns the empty
list, forces the tracker's `remaining` to 0 overriding any prior belief, and
every next fetch then short-circuits via `should_skip_request`: it makes no
network call and returns the empty list. -/
theorem c5_429_short_circuits (rs : RateState) (headers : List (String × String))
    (body : BodyParse) (h : should_skip_request rs = false) :
    ∃ rs2, get_projects rs (.resp 429 headers body) = some (.jarr [], rs2, true) ∧
      rs2.remaining = some 0 ∧
      ∀ u2, get_projects rs2 u2 = some (.jarr [], rs2, false) := by
  refine ⟨{ update_from_headers rs headers with remaining := some 0 }, ?_, rfl, ?_⟩
  · apply get_projects_of_empty
    unfold make_request
    simp [h]
  · intro u2
    apply get_projects_of_empty
    unfold make_request
    simp [should_skip_request]

/-- Witness for C5 with a fresh tracker state and empty headers. -/
theorem c5_429_short_circuits_witness :
    should_skip_request {} = false ∧
    ∃ rs2, get_projects {} (.resp 429 [] .contentTypeError)
        = some (.jarr [], rs2, true) ∧
      rs2.remaining = some 0 ∧
      ∀ u2, get_projects rs2 u2 = some (.jarr [], rs2, false) :=
  ⟨by decide, c5_429_short_circuits {} [] .contentTypeError (by decide)⟩

/-- Characterization of `calculate_smart_interval`: the result is the user
minimum raised to the hard-coded floors 60 (more than 10 users), 120
(`remaining < 10`) and 300 (`remaining < 5`); nothing else raises it. -/
theorem calc_smart_interval_spec (m : Int) (c : Nat) (r? : Option Int) :
    m ≤ calculate_smart_interval m c r? ∧
    (10 < c → 60 ≤ calculate_smart_interval m c r?) ∧
    (∀ r, r? = some r → r < 5 → 300 ≤ calculate_smart_interval m c r?) ∧
    (∀ r, r? = some r → 5 ≤ r → r < 10 → 120 ≤ calculate_smart_interval m c r?) ∧
    (calculate_smart_interval m c r? = m ∨ calculate_smart_interval m c r? = 60 ∨
      calculate_smart_interval m c r? = 120 ∨ calculate_smart_interval m c r? = 300) ∧
    (c ≤ 10 → (∀ r, r? = some r → 10 ≤ r) → calculate_smart_interval m c r? = m) := by
  unfold calculate_smart_interval
  cases r? with
  | none =>
    refine ⟨?_, ?_, ?_, ?_, ?_, ?_⟩ <;>
      simp only [Int.max_def] <;>
      first
        | (intro r hr; exact Option.noConfusion hr)
        | (intro hc hall; split_ifs <;> omega)
        | (intros; split_ifs <;> omega)
        | (split_ifs <;> omega)
  | some r =>
    refine ⟨?_, ?_, ?_, ?_, ?_, ?_⟩ <;>
      simp only [Int.max_def] <;>
      first
        | (intro r' hr'
           injection hr' with hh
           subst hh
           intros
           split_ifs <;> omega)
        | (intro hc hall
           have h10 := hall r rfl
           split_ifs <;> omega)
        | (intros; split_ifs <;> omega)
        | (split_ifs <;> omega)

/-- C6 counterexample: with the default configured warning threshold (20), a
known `remaining` of 15 is below the configured warning threshold, yet the
computed interval stays at the 30-second user minimum — it is not raised to
the 120-second floor, because the source hard-codes the cutoff 10 instead of
using the configured threshold. -/
theorem c6_configured_threshold_ignored :
    (15 : Int) < RATE_LIMIT_WARNING_THRESHOLD ∧
    wait_smart_interval [1] [(1, 30)] (some 15) = 30 ∧
    wait_smart_interval [1] [(1, 30)] (some 15) < 120 := by
  decide

/-- C6 (amended): with at least one active subscriber, the per-cycle sleep
interval is the minimum active-subscriber interval, raised to at least 60 s
when the active count exceeds 10, to at least 120 s when `remaining` is
known and below the hard-coded cutoff 10, and to at least 300 s (> 120 s)
when `remaining` is known and below the hard-coded cutoff 5; these cutoffs,
not the configured warning/critical thresholds, drive the raises, and
without any raise the interval equals the user minimum. -/
theorem c6_smart_interval_floors (active : List Int) (intervals : List (Int × Int))
    (r? : Option Int) (hne : active ≠ []) :
    get_min_user_interval active intervals ≤ wait_smart_interval active intervals r? ∧
    (10 < active.length → 60 ≤ wait_smart_interval active intervals r?) ∧
    (∀ r, r? = some r → r < 5 → 300 ≤ wait_smart_interval active intervals r?) ∧
    (∀ r, r? = some r → 5 ≤ r → r < 10 → 120 ≤ wait_smart_interval active intervals r?) ∧
    (wait_smart_interval active intervals r? = get_min_user_interval active intervals ∨
      wait_smart_interval active intervals r? = 60 ∨
      wait_smart_interval active intervals r? = 120 ∨
      wait_smart_interval active intervals r? = 300) ∧
    (active.length ≤ 10 → (∀ r, r? = some r → 10 ≤ r) →
      wait_smart_interval active intervals r? = get_min_user_interval active intervals) := by
  unfold wait_smart_interval
  rw [if_neg hne]
  exact calc_smart_interval_spec _ _ _

/-- Witness for C6 (amended) with one subscriber at interval 30 and a known
`remaining` of 3: the interval is raised to at least 300 s. -/
theorem c6_smart_interval_floors_witness :
    ([1] : List Int) ≠ [] ∧ (3 : Int) < 5 ∧
    300 ≤ wait_smart_interval [1] [(1, 30)] (some 3) :=
  ⟨by decide, by decide,
    (c6_smart_interval_floors [1] [(1, 30)] (some 3) (by decide)).2.2.1 3 rfl (by decide)⟩

theorem ite_some_ne_none {c : Prop} [Decidable c] (a b : Bool) :
    (if c then some a else some b) ≠ none := by
  split <;> simp

theorem mapIntList_isSome (l : List String) (h : ∀ t ∈ l, (pyInt? t).isSome) :
    (mapIntList l).isSome := by
  induction l with
  | nil => simp [mapIntList]
  | cons t ts ih =>
    simp only [mapIntList]
    have ht := h t (List.mem_cons_self t ts)
    cases hpt : pyInt? t with
    | none => rw [hpt] at ht; simp at ht
    | some n =>
      have hts := ih fun x hx => h x (List.mem_cons_of_mem _ hx)
      cases hm : mapIntList ts with
      | none => rw [hm] at hts; simp at hts
      | some ns => simp

/-- C10: `should_process_project` raises no exception whenever every token
of a present, non-empty `skill_id` filter parses as an integer; with a
non-numeric skill filter (e.g. "abc") the integer parse raises and the error
escapes the filter evaluation — it is caught only per subscriber by the
scheduler loop, which still serves the remaining subscribers. -/
theorem c10_totality_under_precondition :
    (∀ (p : Project) (f : Filters) (uid : Int) (sent : SentMap),
      (∀ s, f.skill_id = some s → ∀ t ∈ pySplitComma s, (pyInt? t).isSome) →
      (should_process_project p f uid sent).isSome) ∧
    should_process_project projFive filterBadSkill 1 [] = none ∧
    (cycleFull [(1, filterBadSkill, [projFive]), (2, {}, [projFive])] []).2 = [(2, 5)] := by
  refine ⟨?_, rfl, by decide⟩
  intro p f uid sent hpre
  obtain ⟨pid?, attrs⟩ := p
  obtain ⟨fe, fp, fsk⟩ := f
  cases pid? with
  | none => simp [should_process_project]
  | some q =>
    cases fsk with
    | none =>
      cases hval : should_process_project ⟨some q, attrs⟩ ⟨fe, fp, none⟩ uid sent with
      | some b => simp
      | none =>
        exfalso
        simp only [should_process_project] at hval
        split_ifs at hval <;> simp at hval
    | some s =>
      cases hval : should_process_project ⟨some q, attrs⟩ ⟨fe, fp, some s⟩ uid sent with
      | some b => simp
      | none =>
        exfalso
        simp only [should_process_project] at hval
        split_ifs at hval <;> try simp at hval
        cases hm : mapIntList (pySplitComma s) with
        | some fs =>
          rw [hm] at hval
          exact ite_some_ne_none _ _ hval
        | none =>
          have hsome := mapIntList_isSome (pySplitComma s) (hpre s rfl)
          rw [hm] at hsome
          simp at hsome

/-- Witness for C10 at a numeric skill filter: totality holds concretely. -/
theorem c10_totality_under_precondition_witness :
    (∀ s, filterSkill22.skill_id = some s → ∀ t ∈ pySplitComma s, (pyInt? t).isSome) ∧
    (should_process_project proj100 filterSkill22 1 []).isSome :=
  ⟨by decide,
    c10_totality_under_precondition.1 proj100 filterSkill22 1 [] (by decide)⟩

/-- C1 counterexample: subscriber 7 starts with items 1..1001 in the
delivered history (so item 1 `hasBeenDelivered`), fetches item 1 in two
consecutive cycles, and is re-delivered item 1 in the second cycle: the
cleanup step after the first cycle pruned the history to the 500 largest
ids, evicting id 1. -/
theorem c1_redelivery_after_prune :
    alreadySent [(7, bigHistory)] 7 1 = true ∧
    (7, 1) ∈ (runCycles [[(7, {}, [projOne])], [(7, {}, [projOne])]] [(7, bigHistory)]).2 := by
  decide

/-- C1 (amended): an (subscriber, item-id) pair already in the delivered
history at the start is never delivered in that cycle or any later cycle,
provided the subscriber's history size plus the total number of items
fetched over those cycles stays within the prune bound 1000 (so the pruning
step never evicts ids); `should_process_project` rejects already-sent ids,
and ids are marked before delivery is attempted. -/
theorem c1_no_redelivery_within_prune_bound (cycles : List (List UserSlot))
    (sent : SentMap) (uid pid : Int) (h : alreadySent sent uid pid = true)
    (hsize : sentLen sent uid + totalItems cycles ≤ 1000) :
    (uid, pid) ∉ (runCycles cycles sent).2 :=
  runCycles_no_redeliver cycles sent h hsize

/-- Witness for C1 (amended): subscriber 5 already has item 9; one cycle
fetching one item does not re-deliver (5, 9). -/
theorem c1_no_redelivery_within_prune_bound_witness :
    alreadySent [(5, [9])] 5 9 = true ∧
    sentLen [(5, [9])] 5 + totalItems [[(5, {}, [projOne])]] ≤ 1000 ∧
    (5, 9) ∉ (runCycles [[(5, {}, [projOne])]] [(5, [9])]).2 :=
  ⟨by decide, by decide,
    c1_no_redelivery_within_prune_bound [[(5, {}, [projOne])]] [(5, [9])] 5 9
      (by decide) (by decide)⟩

end ZfhRobot
